import Mathlib

/-!
Verification of the calibration and retargeting core of the Capstone
motion-capture repository.

The embedded code lives in two files:
- the browser renderer `threejs_ybot_renderer/main.js` (calibration state,
  `normalizeQuat`, `applyCalibration`, `finishCalibration`,
  `applySensorToBones`, `handleSensorMessage`), and
- the Node CSV logger (its own `normalizeQuat`, `applyCalibration`,
  `finishCalibration`, and the websocket message handler).

Quaternion components are modelled as real numbers; `Math.hypot` is the
Euclidean norm.  The code calls the three.js `Quaternion` methods
`multiply` (Hamilton product), `invert` (which conjugates) and
`normalize` (which maps a zero-length quaternion to the identity and
otherwise divides by the length); these library operations are embedded
below with a `three` prefix.
-/

noncomputable section

namespace Capstone

open scoped Classical

/-- A quaternion record, used both for the plain `(w, x, y, z)` objects of
the JS code and for `THREE.Quaternion` values (which store the same four
components). -/
@[ext]
structure Quat where
  w : ℝ
  x : ℝ
  y : ℝ
  z : ℝ

/-- The identity quaternion ⟨1,0,0,0⟩, the value produced by the
`THREE.Quaternion` default constructor. -/
def qid : Quat := ⟨1, 0, 0, 0⟩

/-- Sum of squared components, the square of `Math.hypot(q.w, q.x, q.y, q.z)`. -/
def sumSq (q : Quat) : ℝ := q.w ^ 2 + q.x ^ 2 + q.y ^ 2 + q.z ^ 2

/-- `Math.hypot(q.w, q.x, q.y, q.z)`: the Euclidean norm of the four
components. -/
def qnorm (q : Quat) : ℝ := Real.sqrt (sumSq q)

/-- `normalizeQuat` of the browser renderer (`main.js` lines 120-123):
`len > 0 ? componentwise division : q`. -/
def normalizeQuat (q : Quat) : Quat :=
  let len := qnorm q
  if len > 0 then ⟨q.w / len, q.x / len, q.y / len, q.z / len⟩ else q

/-- `normalizeQuat` of the Node CSV logger (part_000 lines 29-37):
`len === 0 ? q : componentwise division`. -/
def normalizeQuatNode (q : Quat) : Quat :=
  let len := qnorm q
  if len = 0 then q else ⟨q.w / len, q.x / len, q.y / len, q.z / len⟩

/-- The observability events (console/alert calls) emitted by one call of
either `normalizeQuat` body.  Both bodies consist of a single `Math.hypot`
call and a conditional expression and perform no console, alert or other
observability call, so the event list of a call is empty. -/
def normalizeQuatLog (_q : Quat) : List String := []

/-- `THREE.Quaternion.multiplyQuaternions a b`: the Hamilton product,
as implemented by three.js (`multiply(q)` delegates to it with `a = this`). -/
def quatMul (a b : Quat) : Quat :=
  ⟨a.w * b.w - a.x * b.x - a.y * b.y - a.z * b.z,
   a.x * b.w + a.w * b.x + a.y * b.z - a.z * b.y,
   a.y * b.w + a.w * b.y + a.z * b.x - a.x * b.z,
   a.z * b.w + a.w * b.z + a.x * b.y - a.y * b.x⟩

/-- The quaternion conjugate.  This is what
`new THREE.Quaternion(-ref.x, -ref.y, -ref.z, ref.w)` builds in both
`applyCalibration` bodies, and also what `THREE.Quaternion.invert` (used
via `clone().invert()` in `applySensorToBones` and at model load) computes. -/
def conjQuat (q : Quat) : Quat := ⟨q.w, -q.x, -q.y, -q.z⟩

/-- The true quaternion inverse, conjugate divided by the squared norm.
For a unit quaternion it coincides with `conjQuat`. -/
def quatInv (q : Quat) : Quat :=
  let s := sumSq q
  ⟨q.w / s, -q.x / s, -q.y / s, -q.z / s⟩

/-- `THREE.Quaternion.normalize`: when the length is `0` the components are
set to the identity ⟨1,0,0,0⟩, otherwise each component is divided by the
length.  Note the zero case differs from both repository `normalizeQuat`
functions, which return the input unchanged. -/
def threeNormalize (q : Quat) : Quat :=
  let l := qnorm q
  if l = 0 then ⟨1, 0, 0, 0⟩ else ⟨q.w / l, q.x / l, q.y / l, q.z / l⟩

lemma sumSq_nonneg (q : Quat) : 0 ≤ sumSq q := by
  unfold sumSq; positivity

lemma qnorm_nonneg (q : Quat) : 0 ≤ qnorm q := Real.sqrt_nonneg _

lemma qnorm_eq_zero_iff (q : Quat) : qnorm q = 0 ↔ sumSq q = 0 := by
  unfold qnorm
  rw [Real.sqrt_eq_zero (sumSq_nonneg q)]

lemma qnorm_sq (q : Quat) : qnorm q ^ 2 = sumSq q := by
  unfold qnorm
  exact Real.sq_sqrt (sumSq_nonneg q)

/-- The four-square identity: `sumSq` is multiplicative over the Hamilton
product. -/
lemma sumSq_quatMul (a b : Quat) : sumSq (quatMul a b) = sumSq a * sumSq b := by
  unfold sumSq quatMul
  ring

lemma sumSq_conjQuat (q : Quat) : sumSq (conjQuat q) = sumSq q := by
  unfold sumSq conjQuat
  ring

/-- On inputs of nonzero norm the three.js normalization agrees with the
repository `normalizeQuat`. -/
lemma threeNormalize_eq_normalizeQuat {q : Quat} (h : sumSq q ≠ 0) :
    threeNormalize q = normalizeQuat q := by
  unfold threeNormalize normalizeQuat
  have hz : qnorm q ≠ 0 := fun hc => h ((qnorm_eq_zero_iff q).mp hc)
  have hp : qnorm q > 0 := lt_of_le_of_ne (qnorm_nonneg q) (Ne.symm hz)
  rw [if_neg hz, if_pos hp]

/-- A unit quaternion is a fixed point of the three.js normalization. -/
lemma threeNormalize_of_unit {q : Quat} (h : sumSq q = 1) : threeNormalize q = q := by
  unfold threeNormalize
  have h1 : qnorm q = 1 := by
    unfold qnorm; rw [h]; exact Real.sqrt_one
  rw [h1]
  norm_num

/-- The output of the three.js normalization always has `sumSq` one. -/
lemma sumSq_threeNormalize (q : Quat) : sumSq (threeNormalize q) = 1 := by
  unfold threeNormalize
  by_cases h : qnorm q = 0
  · rw [if_pos h]
    unfold sumSq
    norm_num
  · rw [if_neg h]
    have hs : sumSq q ≠ 0 := fun hc => h ((qnorm_eq_zero_iff q).mpr hc)
    have hsq : qnorm q ^ 2 = sumSq q := qnorm_sq q
    unfold sumSq
    field_simp
    rw [hsq]
    rfl

/-- For a unit quaternion the three.js `invert` (conjugation) agrees with
the true inverse. -/
lemma conjQuat_eq_quatInv {q : Quat} (h : sumSq q = 1) : conjQuat q = quatInv q := by
  unfold conjQuat quatInv
  rw [h]
  ext <;> simp

/-- Multiplying by the identity on the left is the identity map. -/
lemma quatMul_qid (q : Quat) : quatMul qid q = q := by
  unfold quatMul qid
  ext <;> simp

/-- `applyCalibration` of the browser renderer (`main.js` lines 168-176):
no reference means the raw sample is returned; otherwise the conjugate of
the reference is Hamilton-multiplied with the sample and the result is
normalized with `THREE.Quaternion.normalize`. -/
def applyCalibration (qRef : String → Option Quat) (label : String) (qNow : Quat) : Quat :=
  match qRef label with
  | none => qNow
  | some ref => threeNormalize (quatMul (conjQuat ref) qNow)

/-- `applyCalibration` of the Node CSV logger (part_000 lines 39-55): the
same computation, going through explicit `THREE.Quaternion` construction
from the `(w,x,y,z)` record and back. -/
def applyCalibrationNode (qRef : String → Option Quat) (label : String) (qNow : Quat) : Quat :=
  match qRef label with
  | none => qNow
  | some ref =>
    let conj : Quat := ⟨ref.w, -ref.x, -ref.y, -ref.z⟩
    let qCurrent : Quat := ⟨qNow.w, qNow.x, qNow.y, qNow.z⟩
    let result := threeNormalize (quatMul conj qCurrent)
    ⟨result.w, result.x, result.y, result.z⟩

/-- The running componentwise sum accumulated by the `for (const q of samples)`
loops of both `finishCalibration` bodies, starting from ⟨0,0,0,0⟩. -/
def qsum (samples : List Quat) : Quat :=
  samples.foldl (fun s q => ⟨s.w + q.w, s.x + q.x, s.y + q.y, s.z + q.z⟩) ⟨0, 0, 0, 0⟩

/-- The componentwise mean `sum / samples.length` computed by both
`finishCalibration` bodies. -/
def qmean (samples : List Quat) : Quat :=
  let s := qsum samples
  let n : ℝ := samples.length
  ⟨s.w / n, s.x / n, s.y / n, s.z / n⟩

/-- The reference-table update performed by `finishCalibration` of the Node
CSV logger (part_000 lines 82-113): it iterates over every key of
`calibrationData` and, for each key with a non-empty sample list, writes
`qRef[label] = normalizeQuat(mean)`; other keys leave `qRef` untouched.
Each iteration writes only its own label and reads only `calibrationData`,
so the loop is equivalent to this pointwise map. -/
def finishCalibrationNode (calibrationData : String → Option (List Quat))
    (qRef0 : String → Option Quat) : String → Option Quat :=
  fun label =>
    match calibrationData label with
    | some samples =>
      if samples.length > 0 then some (normalizeQuatNode (qmean samples)) else qRef0 label
    | none => qRef0 label

/-- The reference-table update performed by `finishCalibration` of the
browser renderer (`main.js` lines 143-166): it iterates over the `connected`
list (not over the keys of `calibrationData`) and, for each connected label
whose sample list exists and is non-empty (`samples?.length > 0`), writes
`qRef[label] = normalizeQuat(mean)`. -/
def finishCalibrationRenderer (connected : List String)
    (calibrationData : String → Option (List Quat))
    (qRef0 : String → Option Quat) : String → Option Quat :=
  fun label =>
    if label ∈ connected then
      match calibrationData label with
      | some samples =>
        if samples.length > 0 then some (normalizeQuat (qmean samples)) else qRef0 label
      | none => qRef0 label
    else qRef0 label

/-- The `parentLabel` table of the renderer (`main.js` lines 194-207);
a lookup of any other string is `undefined`. -/
def parentLabel : String → Option String
  | "HIPS" => none
  | "SP" => some "HIPS"
  | "SP2" => some "SP"
  | "H" => some "SP2"
  | "RA" => some "SP2"
  | "RFA" => some "RA"
  | "LA" => some "SP2"
  | "LFA" => some "LA"
  | "RUL" => some "HIPS"
  | "RL" => some "RUL"
  | "LUL" => some "HIPS"
  | "LL" => some "LUL"
  | _ => none

/-- The fixed visiting order `order` of `applySensorToBones`
(`main.js` lines 216-222). -/
def order : List String :=
  ["HIPS", "SP", "SP2", "H", "RA", "RFA", "LA", "LFA", "RUL", "RL", "LUL", "LL"]

/-- The per-bone data captured at model load: `userData.bindQuat` is the
bone quaternion at load time and `userData.bindInv` its three.js `invert`
(conjugate).  Both fields are immutable after load, so they are carried as
plain data here. -/
structure BoneData where
  bindQuat : Quat
  bindInv : Quat

/-- The mutable shared state of the renderer touched by the message and
retargeting code: the two calibration flags, the calibration buffers, the
reference table, the corrected global pose table `sensorGlobal`, the bone
quaternions written by the retargeter (`bone.quaternion`, indexed by
label), and the CSV rows (label and logged quaternion). -/
structure AppState where
  isCalibrating : Bool
  calibrated : Bool
  calibrationData : String → Option (List Quat)
  qRef : String → Option Quat
  sensorGlobal : String → Option Quat
  boneRot : String → Option Quat
  csvRows : List (String × Quat)

/-- One iteration of the `for (const label of order)` loop of
`applySensorToBones` (`main.js` lines 224-265).  If the label has no bone
or no `sensorGlobal` entry the iteration is skipped.  Otherwise
`sensorQ.normalize()` normalizes the stored entry in place, the
parent-relative rotation is built with `clone().invert()` (conjugation) of
the parent entry when present, the root/non-root bind correction is
applied together with the static `boneOffset`, and the three.js-normalized
result is written to the bone quaternion. -/
def applyBoneStep (boneMap : String → Option BoneData) (boneOffset : String → Quat)
    (st : AppState) (label : String) : AppState :=
  match boneMap label with
  | none => st
  | some bone =>
    match st.sensorGlobal label with
    | none => st
    | some sq =>
      let sensorQ := threeNormalize sq
      let sensorGlobal1 : String → Option Quat :=
        fun l => if l = label then some sensorQ else st.sensorGlobal l
      let localSensorQuat :=
        match parentLabel label with
        | some parent =>
          match sensorGlobal1 parent with
          | some pq => quatMul (conjQuat pq) sensorQ
          | none => sensorQ
        | none => sensorQ
      let qFinal :=
        if label = "HIPS" then
          quatMul (quatMul bone.bindQuat localSensorQuat) (boneOffset label)
        else
          quatMul (quatMul bone.bindInv localSensorQuat) (boneOffset label)
      { st with
        sensorGlobal := sensorGlobal1,
        boneRot := fun l => if l = label then some (threeNormalize qFinal) else st.boneRot l }

/-- `applySensorToBones` (`main.js` lines 215-266): the loop body applied
over the fixed visiting order. -/
def applySensorToBones (boneMap : String → Option BoneData) (boneOffset : String → Quat)
    (st : AppState) : AppState :=
  order.foldl (applyBoneStep boneMap boneOffset) st

/-- `handleSensorMessage` (`main.js` lines 271-302) after a well-formed
quaternion payload has been parsed: during collection the sample is
appended to the (lazily created) buffer of the payload label and nothing
else happens; after a completed calibration the corrected sample is logged
to the CSV rows, stored into `sensorGlobal`, and `applySensorToBones`
runs; when neither flag is set the sample is dropped. -/
def handleSensorMessage (boneMap : String → Option BoneData) (boneOffset : String → Quat)
    (st : AppState) (payloadLabel : String) (q : Quat) : AppState :=
  if st.isCalibrating then
    { st with
      calibrationData := fun l =>
        if l = payloadLabel then some (((st.calibrationData payloadLabel).getD []) ++ [q])
        else st.calibrationData l }
  else if st.calibrated then
    let calibratedQ := applyCalibration st.qRef payloadLabel q
    let st1 : AppState :=
      { st with
        csvRows := st.csvRows ++ [(payloadLabel, calibratedQ)],
        sensorGlobal := fun l =>
          if l = payloadLabel then some calibratedQ else st.sensorGlobal l }
    applySensorToBones boneMap boneOffset st1
  else st

/-- States the claim formula for the parent-relative rotation of the
retargeting step: the true inverse of the parent global pose composed with
the own global pose when the joint has a parent whose pose is present, and
the own global pose otherwise. -/
def specParentLocal (pose : String → Option Quat) (label : String) (g : Quat) : Quat :=
  match parentLabel label with
  | some p =>
    match pose p with
    | some pq => quatMul (quatInv pq) g
    | none => g
  | none => g

lemma sumSq_qid : sumSq qid = 1 := by
  unfold sumSq qid
  norm_num

lemma qnorm_qid : qnorm qid = 1 := by
  unfold qnorm
  rw [sumSq_qid]
  exact Real.sqrt_one

lemma sumSq_zero_quat : sumSq ⟨0, 0, 0, 0⟩ = 0 := by
  unfold sumSq
  norm_num

lemma qnorm_zero_quat : qnorm ⟨0, 0, 0, 0⟩ = 0 := by
  unfold qnorm
  rw [sumSq_zero_quat]
  exact Real.sqrt_zero

lemma qnorm_two_w : qnorm ⟨2, 0, 0, 0⟩ = 2 := by
  unfold qnorm sumSq
  norm_num
  rw [show (4 : ℝ) = 2 ^ 2 by norm_num]
  exact Real.sqrt_sq (by norm_num)

lemma threeNormalize_zero_quat : threeNormalize ⟨0, 0, 0, 0⟩ = qid := by
  unfold threeNormalize qid
  rw [if_pos qnorm_zero_quat]

lemma normalizeQuat_zero_quat : normalizeQuat ⟨0, 0, 0, 0⟩ = ⟨0, 0, 0, 0⟩ := by
  unfold normalizeQuat
  rw [if_neg]
  rw [qnorm_zero_quat]
  exact lt_irrefl 0

lemma normalizeQuat_qid : normalizeQuat qid = qid := by
  unfold normalizeQuat
  rw [if_pos (by rw [qnorm_qid]; norm_num)]
  rw [qnorm_qid]
  unfold qid
  ext <;> norm_num

lemma conjQuat_qid : conjQuat qid = qid := by
  unfold conjQuat qid
  ext <;> norm_num

lemma quatInv_qid : quatInv qid = qid := by
  unfold quatInv
  rw [sumSq_qid]
  unfold qid
  ext <;> norm_num

lemma quatMul_qid_qid : quatMul qid qid = qid := quatMul_qid qid

/-- The normalized product written by the retargeting step agrees with the
repository normalization whenever the three factors have nonzero norm. -/
lemma threeNormalize_product_eq (B loc off : Quat) (hB : sumSq B ≠ 0)
    (hloc : sumSq loc ≠ 0) (hoff : sumSq off ≠ 0) :
    threeNormalize (quatMul (quatMul B loc) off) =
      normalizeQuat (quatMul (quatMul B loc) off) := by
  apply threeNormalize_eq_normalizeQuat
  rw [sumSq_quatMul, sumSq_quatMul]
  exact mul_ne_zero (mul_ne_zero hB hloc) hoff

/-- With an all-`none` bone map every iteration of `applySensorToBones` is
skipped and the state is returned unchanged. -/
lemma applySensorToBones_no_bones (boneOffset : String → Quat) (st : AppState) :
    applySensorToBones (fun _ => none) boneOffset st = st := rfl

/-- Claim C6 (confirmed): the fixed visiting order of the retargeting pass
is topological for the `parentLabel` table — the root HIPS comes first, it
is the only visited label with a null parent, and every other visited
label has a parent that occurs strictly earlier in the order. -/
theorem c6_topological_order :
    order.head? = some "HIPS" ∧
    parentLabel "HIPS" = none ∧
    (∀ l ∈ order, l ≠ "HIPS" → ∃ p ∈ order, parentLabel l = some p ∧
      order.indexOf p < order.indexOf l) ∧
    (∀ l ∈ order, parentLabel l = none → l = "HIPS") := by
  refine ⟨rfl, rfl, ?_, ?_⟩
  · decide
  · decide

/-- Witness for C6 at the concrete label RFA: its parent occurs strictly
earlier in the visiting order. -/
theorem c6_witness :
    ∃ p ∈ order, parentLabel "RFA" = some p ∧
      order.indexOf p < order.indexOf "RFA" :=
  c6_topological_order.2.2.1 "RFA" (by decide) (by decide)

/-- Counterexample for claim C7: at the zero quaternion (the only input of
zero Euclidean norm) `normalizeQuat` returns the input unchanged but emits
no observability event whatsoever, so no anomaly is signalled. -/
theorem c7_counterexample :
    normalizeQuat ⟨0, 0, 0, 0⟩ = ⟨0, 0, 0, 0⟩ ∧ normalizeQuatLog ⟨0, 0, 0, 0⟩ = [] :=
  ⟨normalizeQuat_zero_quat, rfl⟩

/-- Claim C7 (corrected): for zero norm, `normalizeQuat` returns the input
unchanged (and, being a total pure function, never raises); for positive
norm it divides each component by the norm.  Contrary to the claim it
signals no anomaly: its observability event list is empty. -/
theorem c7_zero_norm_passthrough (q : Quat) :
    (qnorm q = 0 → normalizeQuat q = q ∧ normalizeQuatLog q = []) ∧
    (qnorm q > 0 →
      normalizeQuat q = ⟨q.w / qnorm q, q.x / qnorm q, q.y / qnorm q, q.z / qnorm q⟩) := by
  constructor
  · intro h
    refine ⟨?_, rfl⟩
    unfold normalizeQuat
    rw [if_neg]
    rw [h]
    exact lt_irrefl 0
  · intro h
    unfold normalizeQuat
    rw [if_pos h]

/-- Witness for C7 at the concrete input ⟨2,0,0,0⟩, whose norm is 2. -/
theorem c7_witness :
    qnorm ⟨2, 0, 0, 0⟩ > 0 ∧ normalizeQuat ⟨2, 0, 0, 0⟩ = ⟨1, 0, 0, 0⟩ := by
  have h2 : qnorm ⟨2, 0, 0, 0⟩ > 0 := by rw [qnorm_two_w]; norm_num
  refine ⟨h2, ?_⟩
  have h := (c7_zero_norm_passthrough ⟨2, 0, 0, 0⟩).2 h2
  rw [h, qnorm_two_w]
  ext <;> norm_num

/-- Claim C9 (confirmed): the Node CSV logger and the browser renderer
compute the same normalization (their two zero-norm guards are equivalent
because the Euclidean norm is nonnegative) and the same calibration
correction. -/
theorem c9_logger_renderer_equiv :
    (∀ q, normalizeQuatNode q = normalizeQuat q) ∧
    (∀ qRef label qNow, applyCalibrationNode qRef label qNow = applyCalibration qRef label qNow) := by
  constructor
  · intro q
    unfold normalizeQuatNode normalizeQuat
    by_cases h : qnorm q = 0
    · rw [if_pos h, if_neg]
      rw [h]
      exact lt_irrefl 0
    · rw [if_neg h, if_pos (lt_of_le_of_ne (qnorm_nonneg q) (Ne.symm h))]
  · intro qRef label qNow
    unfold applyCalibrationNode applyCalibration
    cases href : qRef label with
    | none => rfl
    | some ref => rfl

/-- Claim C10 (confirmed): with neither calibration flag set, a
well-formed sample leaves the whole renderer state unchanged — no buffer
append, no CSV row, no global-pose write, no bone write. -/
theorem c10_uncalibrated_sample_dropped (boneMap : String → Option BoneData)
    (boneOffset : String → Quat) (st : AppState) (payloadLabel : String) (q : Quat)
    (h1 : st.isCalibrating = false) (h2 : st.calibrated = false) :
    handleSensorMessage boneMap boneOffset st payloadLabel q = st := by
  unfold handleSensorMessage
  rw [h1, h2]
  simp

/-- Witness for C10 at a concrete pre-calibration state and sample. -/
theorem c10_witness :
    handleSensorMessage (fun _ => none) (fun _ => qid)
      ⟨false, false, fun _ => none, fun _ => none, fun _ => none, fun _ => none, []⟩
      "RA" qid =
    ⟨false, false, fun _ => none, fun _ => none, fun _ => none, fun _ => none, []⟩ :=
  c10_uncalibrated_sample_dropped _ _ _ _ _ rfl rfl

/-- Claim C4 (code bug): the calibration-completion step performs no
hemisphere alignment and no degeneracy check.  On the antipodal buffer
[⟨1,0,0,0⟩, ⟨-1,0,0,0⟩] the componentwise mean is the zero quaternion,
`normalizeQuat` passes it through, and both implementations silently store
the zero quaternion as the reference; a subsequent correction against the
zero reference then collapses every sample to the identity. -/
theorem c4_antipodal_not_guarded :
    finishCalibrationNode
        (fun l => if l = "RA" then some [⟨1, 0, 0, 0⟩, ⟨-1, 0, 0, 0⟩] else none)
        (fun _ => none) "RA" = some ⟨0, 0, 0, 0⟩ ∧
    finishCalibrationRenderer ["RA"]
        (fun l => if l = "RA" then some [⟨1, 0, 0, 0⟩, ⟨-1, 0, 0, 0⟩] else none)
        (fun _ => none) "RA" = some ⟨0, 0, 0, 0⟩ ∧
    applyCalibration (fun _ => some ⟨0, 0, 0, 0⟩) "RA" ⟨1, 0, 0, 0⟩ = ⟨1, 0, 0, 0⟩ := by
  have hmean : qmean [⟨1, 0, 0, 0⟩, ⟨-1, 0, 0, 0⟩] = ⟨0, 0, 0, 0⟩ := by
    unfold qmean qsum
    simp only [List.foldl]
    ext <;> norm_num
  have hnode : normalizeQuatNode ⟨0, 0, 0, 0⟩ = ⟨0, 0, 0, 0⟩ := by
    unfold normalizeQuatNode
    rw [if_pos qnorm_zero_quat]
  refine ⟨?_, ?_, ?_⟩
  · unfold finishCalibrationNode
    simp [hmean, hnode]
  · unfold finishCalibrationRenderer
    simp [hmean, normalizeQuat_zero_quat]
  · unfold applyCalibration
    have hprod : quatMul (conjQuat ⟨0, 0, 0, 0⟩) ⟨1, 0, 0, 0⟩ = ⟨0, 0, 0, 0⟩ := by
      unfold quatMul conjQuat
      ext <;> norm_num
    simp only [hprod, threeNormalize_zero_quat]
    rfl

/-- Counterexample for claim C1: in the renderer, `finishCalibration`
iterates over the `connected` list only.  In a state where the buffer of
label RA is non-empty (the firmware hardcodes the payload label RA, so a
sensor connected under another socket key fills the RA buffer) but RA is
not in `connected`, the timer expiry sets no reference for RA, although
its buffer is non-empty. -/
theorem c1_counterexample :
    (fun l => if l = "RA" then some [(⟨1, 0, 0, 0⟩ : Quat)] else
      if l = "LA" then some ([] : List Quat) else none) "RA" = some [⟨1, 0, 0, 0⟩] ∧
    finishCalibrationRenderer ["LA"]
      (fun l => if l = "RA" then some [(⟨1, 0, 0, 0⟩ : Quat)] else
        if l = "LA" then some ([] : List Quat) else none)
      (fun _ => none) "RA" = none := by
  refine ⟨rfl, ?_⟩
  unfold finishCalibrationRenderer
  rw [if_neg (by decide)]

/-- Claim C1 (corrected): in the Node logger the timer expiry maps every
label with a non-empty buffer to the normalization of the componentwise
mean of its samples and leaves every other label without a new entry; in
the renderer the same holds for the labels of the `connected` list, while
a label outside `connected` is skipped even when its buffer is non-empty.
A buffer of two identity samples yields the identity reference. -/
theorem c1_finish_calibration :
    (∀ data qRef0 label samples, data label = some samples → samples ≠ [] →
      finishCalibrationNode data qRef0 label = some (normalizeQuatNode (qmean samples))) ∧
    (∀ data (qRef0 : String → Option Quat) label,
      data label = none ∨ data label = some [] →
      finishCalibrationNode data qRef0 label = qRef0 label) ∧
    (∀ connected data qRef0 label samples, label ∈ connected →
      data label = some samples → samples ≠ [] →
      finishCalibrationRenderer connected data qRef0 label =
        some (normalizeQuat (qmean samples))) ∧
    (∀ connected data (qRef0 : String → Option Quat) label,
      label ∉ connected ∨ data label = none ∨ data label = some [] →
      finishCalibrationRenderer connected data qRef0 label = qRef0 label) ∧
    finishCalibrationNode
      (fun l => if l = "RA" then some [qid, qid] else none)
      (fun _ => none) "RA" = some qid := by
  have hmean2 : qmean [qid, qid] = qid := by
    unfold qmean qsum qid
    simp only [List.foldl]
    ext <;> norm_num
  refine ⟨?_, ?_, ?_, ?_, ?_⟩
  · intro data qRef0 label samples h hne
    unfold finishCalibrationNode
    rw [h]
    show (if samples.length > 0 then some (normalizeQuatNode (qmean samples))
      else qRef0 label) = _
    rw [if_pos (List.length_pos.mpr hne)]
  · intro data qRef0 label h
    unfold finishCalibrationNode
    rcases h with h | h
    · rw [h]
    · rw [h]
      simp
  · intro connected data qRef0 label samples hmem h hne
    unfold finishCalibrationRenderer
    rw [if_pos hmem, h]
    show (if samples.length > 0 then some (normalizeQuat (qmean samples))
      else qRef0 label) = _
    rw [if_pos (List.length_pos.mpr hne)]
  · intro connected data qRef0 label h
    unfold finishCalibrationRenderer
    by_cases hmem : label ∈ connected
    · rw [if_pos hmem]
      rcases h with h | h | h
      · exact absurd hmem h
      · rw [h]
      · rw [h]
        simp
    · rw [if_neg hmem]
  · unfold finishCalibrationNode
    have hid : normalizeQuatNode qid = qid := by
      unfold normalizeQuatNode
      rw [if_neg (by rw [qnorm_qid]; norm_num)]
      rw [qnorm_qid]
      unfold qid
      ext <;> norm_num
    simp [hmean2, hid]

/-- Witness for C1 at a concrete one-sample buffer. -/
theorem c1_witness :
    finishCalibrationNode (fun _ => some [qid]) (fun _ => none) "RA" =
      some (normalizeQuatNode (qmean [qid])) :=
  c1_finish_calibration.1 (fun _ => some [qid]) (fun _ => none) "RA" [qid] rfl (by simp)

/-- Counterexample for claim C2: with the identity reference present and
the zero quaternion as input, the code (via `THREE.Quaternion.normalize`)
returns the identity, whereas the claimed value
`normalizeQuat(conjugate(ref) * qNow)` is the zero quaternion. -/
theorem c2_counterexample :
    applyCalibration (fun l => if l = "RA" then some qid else none) "RA" ⟨0, 0, 0, 0⟩ = qid ∧
    normalizeQuat (quatMul (conjQuat qid) ⟨0, 0, 0, 0⟩) = ⟨0, 0, 0, 0⟩ ∧
    qid ≠ (⟨0, 0, 0, 0⟩ : Quat) := by
  have hprod : quatMul (conjQuat qid) ⟨0, 0, 0, 0⟩ = ⟨0, 0, 0, 0⟩ := by
    unfold quatMul conjQuat qid
    ext <;> norm_num
  refine ⟨?_, ?_, ?_⟩
  · unfold applyCalibration
    simp only [if_pos]
    rw [hprod, threeNormalize_zero_quat]
  · rw [hprod, normalizeQuat_zero_quat]
  · intro h
    have hw := congrArg Quat.w h
    unfold qid at hw
    norm_num at hw

/-- Claim C2 (corrected): with no reference the sample passes through
unchanged; with a reference present the result is the three.js
normalization of `conjugate(ref) * qNow`, which agrees with the claimed
`normalizeQuat(conjugate(ref) * qNow)` whenever that product has nonzero
norm, but maps a zero product (for example the zero input sample) to the
identity instead of passing it through. -/
theorem c2_apply_calibration :
    (∀ qRef label qNow, qRef label = none → applyCalibration qRef label qNow = qNow) ∧
    (∀ qRef label ref qNow, qRef label = some ref →
      sumSq (quatMul (conjQuat ref) qNow) ≠ 0 →
      applyCalibration qRef label qNow = normalizeQuat (quatMul (conjQuat ref) qNow)) ∧
    (∀ qRef label ref qNow, qRef label = some ref →
      sumSq (quatMul (conjQuat ref) qNow) = 0 →
      applyCalibration qRef label qNow = qid) := by
  refine ⟨?_, ?_, ?_⟩
  · intro qRef label qNow h
    unfold applyCalibration
    rw [h]
  · intro qRef label ref qNow h hs
    unfold applyCalibration
    rw [h]
    exact threeNormalize_eq_normalizeQuat hs
  · intro qRef label ref qNow h hs
    unfold applyCalibration
    rw [h]
    show threeNormalize (quatMul (conjQuat ref) qNow) = qid
    unfold threeNormalize
    rw [if_pos ((qnorm_eq_zero_iff _).mpr hs)]
    rfl

/-- Witness for C2 at the concrete reference qid and input ⟨0,2,0,0⟩. -/
theorem c2_witness :
    applyCalibration (fun l => if l = "RA" then some qid else none) "RA" ⟨0, 2, 0, 0⟩ =
      normalizeQuat (quatMul (conjQuat qid) ⟨0, 2, 0, 0⟩) :=
  c2_apply_calibration.2.1 (fun l => if l = "RA" then some qid else none) "RA" qid
    ⟨0, 2, 0, 0⟩ (by simp) (by unfold quatMul conjQuat qid sumSq; norm_num)

/-- Counterexample for claim C8: with the identity reference and the zero
quaternion as input, `correct` returns the identity while `normalize`
returns the zero quaternion unchanged, so the two differ. -/
theorem c8_counterexample :
    applyCalibration (fun _ => some qid) "H" ⟨0, 0, 0, 0⟩ = qid ∧
    normalizeQuat ⟨0, 0, 0, 0⟩ = ⟨0, 0, 0, 0⟩ ∧
    qid ≠ (⟨0, 0, 0, 0⟩ : Quat) := by
  have hprod : quatMul (conjQuat qid) ⟨0, 0, 0, 0⟩ = ⟨0, 0, 0, 0⟩ := by
    unfold quatMul conjQuat qid
    ext <;> norm_num
  refine ⟨?_, normalizeQuat_zero_quat, ?_⟩
  · unfold applyCalibration
    simp only [hprod, threeNormalize_zero_quat]
  · intro h
    have hw := congrArg Quat.w h
    unfold qid at hw
    norm_num at hw

/-- Claim C8 (corrected): with the identity reference,
`correct(label, q) = normalize(q)` holds for every input of nonzero norm;
at the zero quaternion the code returns the identity instead. -/
theorem c8_identity_reference (qRef : String → Option Quat) (label : String) (q : Quat)
    (href : qRef label = some qid) (hq : sumSq q ≠ 0) :
    applyCalibration qRef label q = normalizeQuat q := by
  unfold applyCalibration
  rw [href]
  show threeNormalize (quatMul (conjQuat qid) q) = normalizeQuat q
  rw [show quatMul (conjQuat qid) q = q by rw [conjQuat_qid]; exact quatMul_qid q]
  exact threeNormalize_eq_normalizeQuat hq

/-- Witness for C8 at the concrete input ⟨3,0,0,0⟩. -/
theorem c8_witness :
    applyCalibration (fun _ => some qid) "LL" ⟨3, 0, 0, 0⟩ = normalizeQuat ⟨3, 0, 0, 0⟩ :=
  c8_identity_reference (fun _ => some qid) "LL" ⟨3, 0, 0, 0⟩ rfl
    (by unfold sumSq; norm_num)

/-- Counterexample for claim C5: in a calibrated state with no reference
entry for RA, an incoming sample of norm 2 is passed through unchanged by
the correction and stored into `sensorGlobal` (and logged) with norm 2,
which is not within 1e-6 of unit norm. -/
theorem c5_counterexample :
    (handleSensorMessage (fun _ => none) (fun _ => qid)
        ⟨false, true, fun _ => none, fun _ => none, fun _ => none, fun _ => none, []⟩
        "RA" ⟨2, 0, 0, 0⟩).sensorGlobal "RA" = some ⟨2, 0, 0, 0⟩ ∧
    qnorm ⟨2, 0, 0, 0⟩ = 2 ∧
    ¬ |qnorm (⟨2, 0, 0, 0⟩ : Quat) - 1| ≤ 1 / 1000000 := by
  refine ⟨?_, qnorm_two_w, ?_⟩
  · unfold handleSensorMessage
    simp only [Bool.false_eq_true, if_false, if_true]
    rw [applySensorToBones_no_bones]
    simp [applyCalibration]
  · rw [qnorm_two_w]
    norm_num

/-- Claim C5 (corrected): a quaternion stored through the correction path
with a present reference, and every bone rotation written by the
retargeting step, has exactly unit norm (both go through the three.js
normalization); but the pass-through paths — absent reference, and the
degenerate references of C4 — can store and emit quaternions of arbitrary
norm, so the claimed invariant does not hold for every stored value. -/
theorem c5_unit_norm :
    (∀ qRef label ref qNow, qRef label = some ref →
      sumSq (applyCalibration qRef label qNow) = 1) ∧
    (∀ boneMap boneOffset (st : AppState) label bone g r,
      boneMap label = some bone → st.sensorGlobal label = some g →
      (applyBoneStep boneMap boneOffset st label).boneRot label = some r →
      sumSq r = 1) := by
  constructor
  · intro qRef label ref qNow h
    unfold applyCalibration
    rw [h]
    exact sumSq_threeNormalize _
  · intro boneMap boneOffset st label bone g r hb hg hr
    simp only [applyBoneStep, hb, hg] at hr
    simp at hr
    subst hr
    exact sumSq_threeNormalize _

/-- Witness for C5 at a concrete reference and sample. -/
theorem c5_witness :
    sumSq (applyCalibration (fun _ => some ⟨0, 1, 0, 0⟩) "RA" qid) = 1 :=
  c5_unit_norm.1 (fun _ => some ⟨0, 1, 0, 0⟩) "RA" ⟨0, 1, 0, 0⟩ qid rfl

/-- The root/non-root case split of the written rotation commutes with
pulling the bind factor out of the conditional, and the three.js
normalization of the product agrees with the repository normalization for
nondegenerate factors. -/
lemma written_rotation_eq (label : String) (bone : BoneData) (loc off : Quat)
    (hB : sumSq (if label = "HIPS" then bone.bindQuat else bone.bindInv) ≠ 0)
    (hloc : sumSq loc ≠ 0) (hoff : sumSq off ≠ 0) :
    threeNormalize (if label = "HIPS" then quatMul (quatMul bone.bindQuat loc) off
      else quatMul (quatMul bone.bindInv loc) off) =
    normalizeQuat (quatMul
      (quatMul (if label = "HIPS" then bone.bindQuat else bone.bindInv) loc) off) := by
  by_cases h : label = "HIPS"
  · rw [if_pos h, if_pos h]
    rw [if_pos h] at hB
    exact threeNormalize_product_eq _ _ _ hB hloc hoff
  · rw [if_neg h, if_neg h]
    rw [if_neg h] at hB
    exact threeNormalize_product_eq _ _ _ hB hloc hoff

/-- Claim C3 (confirmed): one joint visit of the retargeting pass, for a
joint with a mapped bone and a present global pose, under the unit-norm
invariant for the stored poses and nondegenerate bind/offset data.  The
parent-relative rotation equals inverse(GlobalPose[parent]) *
GlobalPose[label] when the parent pose is present and GlobalPose[label]
otherwise, and the written rotation is the normalization of
bindOrientation * parentLocal * localOffset for the root joint HIPS and
of inverseBindOrientation * parentLocal * localOffset for every other
joint. -/
theorem c3_retargeting_step (boneMap : String → Option BoneData) (boneOffset : String → Quat)
    (st : AppState) (label : String) (bone : BoneData) (g : Quat)
    (hb : boneMap label = some bone)
    (hg : st.sensorGlobal label = some g)
    (hgu : sumSq g = 1)
    (hself : ∀ p, parentLabel label = some p → p ≠ label)
    (hpu : ∀ p pq, parentLabel label = some p → st.sensorGlobal p = some pq → sumSq pq = 1)
    (hB : sumSq (if label = "HIPS" then bone.bindQuat else bone.bindInv) ≠ 0)
    (hoff : sumSq (boneOffset label) ≠ 0) :
    (applyBoneStep boneMap boneOffset st label).boneRot label =
      some (normalizeQuat (quatMul
        (quatMul (if label = "HIPS" then bone.bindQuat else bone.bindInv)
          (specParentLocal st.sensorGlobal label g))
        (boneOffset label))) := by
  have hng : threeNormalize g = g := threeNormalize_of_unit hgu
  have hgz : sumSq g ≠ 0 := by rw [hgu]; norm_num
  cases hpl : parentLabel label with
  | none =>
    have hspec : specParentLocal st.sensorGlobal label g = g := by
      unfold specParentLocal
      rw [hpl]
    rw [hspec]
    simp only [applyBoneStep, hb, hg, hng, hpl, eq_self_iff_true, if_true]
    exact congrArg some (written_rotation_eq label bone g (boneOffset label) hB hgz hoff)
  | some p =>
    have hpn : p ≠ label := hself p hpl
    cases hpg : st.sensorGlobal p with
    | none =>
      have hspec : specParentLocal st.sensorGlobal label g = g := by
        unfold specParentLocal
        rw [hpl]
        show (match st.sensorGlobal p with
          | some pq => quatMul (quatInv pq) g
          | none => g) = g
        rw [hpg]
      rw [hspec]
      simp only [applyBoneStep, hb, hg, hng, hpl, if_neg hpn, hpg, eq_self_iff_true, if_true]
      exact congrArg some (written_rotation_eq label bone g (boneOffset label) hB hgz hoff)
    | some pq =>
      have hpqu : sumSq pq = 1 := hpu p pq hpl hpg
      have hspec : specParentLocal st.sensorGlobal label g = quatMul (conjQuat pq) g := by
        unfold specParentLocal
        rw [hpl]
        show (match st.sensorGlobal p with
          | some pq => quatMul (quatInv pq) g
          | none => g) = quatMul (conjQuat pq) g
        rw [hpg, conjQuat_eq_quatInv hpqu]
      rw [hspec]
      have hlz : sumSq (quatMul (conjQuat pq) g) ≠ 0 := by
        rw [sumSq_quatMul, sumSq_conjQuat, hpqu, hgu]
        norm_num
      simp only [applyBoneStep, hb, hg, hng, hpl, if_neg hpn, hpg, eq_self_iff_true, if_true]
      exact congrArg some
        (written_rotation_eq label bone (quatMul (conjQuat pq) g) (boneOffset label) hB hlz hoff)

/-- Witness for C3 at the concrete joint SP with every pose, bind and
offset equal to the identity: the written rotation is the identity. -/
theorem c3_witness :
    (applyBoneStep (fun _ => some ⟨qid, qid⟩) (fun _ => qid)
      ⟨false, true, fun _ => none, fun _ => none, fun _ => some qid, fun _ => none, []⟩
      "SP").boneRot "SP" = some qid := by
  have hps : parentLabel "SP" = some "HIPS" := by decide
  have h := c3_retargeting_step (fun _ => some ⟨qid, qid⟩) (fun _ => qid)
    ⟨false, true, fun _ => none, fun _ => none, fun _ => some qid, fun _ => none, []⟩
    "SP" ⟨qid, qid⟩ qid rfl rfl sumSq_qid
    (by
      intro p hp
      rw [hps] at hp
      injection hp with h2
      subst h2
      decide)
    (by
      intro p pq hp hq
      injection hq with h2
      subst h2
      exact sumSq_qid)
    (by
      rw [if_neg (by decide)]
      show sumSq qid ≠ 0
      rw [sumSq_qid]
      norm_num)
    (by
      show sumSq qid ≠ 0
      rw [sumSq_qid]
      norm_num)
  rw [h]
  have hsp : specParentLocal (fun _ => some qid) "SP" qid = qid := by
    unfold specParentLocal
    rw [hps]
    show quatMul (quatInv qid) qid = qid
    rw [quatInv_qid]
    exact quatMul_qid qid
  rw [hsp]
  rw [show (if "SP" = "HIPS" then (⟨qid, qid⟩ : BoneData).bindQuat
    else (⟨qid, qid⟩ : BoneData).bindInv) = qid from by rw [if_neg (by decide)]]
  rw [quatMul_qid_qid, quatMul_qid_qid, normalizeQuat_qid]

end Capstone

end
